import Mathlib

/-!
Verification development for the SuperSID_Pro VLF monitoring core.

The Python source is shallowly embedded:

* Python `float` values are modelled as `Fl := Option ℚ`: `some q` is a finite
  value, `none` stands for a non-finite value (NaN or ±Inf).  The claims under
  study are about finiteness, clamping, thresholds and buffer discipline, not
  about rounding, so exact rationals are an adequate carrier for finite values.
* Opaque numeric kernels from numpy/scipy (FFT, Butterworth design, forward-
  backward filtering, Hilbert transform, square root, Hann window) are taken as
  parameters of the embedding; every theorem below is proved for an arbitrary
  choice of these kernels, so the results do not depend on their numeric
  content — only on the guard/branch logic that the source wraps around them.
* Dictionaries iterated in insertion order are modelled as association lists,
  and the sqlite table of `realtime_storage.py` as a list of rows.
-/

namespace SuperSID

/-- Model of a Python float: `some q` is a finite value, `none` is NaN/Inf. -/
abbrev Fl := Option ℚ

/-- `np.isfinite` on a single value. -/
def isFiniteF (v : Fl) : Bool := v.isSome

/-- `np.nan_to_num(v, nan=0.0, posinf=0.0, neginf=0.0)` on a single value. -/
def nanToNum (v : Fl) : ℚ := v.getD 0

/-- IEEE-style `v > c` comparison: any comparison with NaN is `False`. -/
def flGtQ (v : Fl) (c : ℚ) : Bool :=
  match v with
  | some q => decide (c < q)
  | none => false

/-- `np.mean` over a list: the mean of an empty slice is NaN (`none`). -/
def npMeanFl (l : List ℚ) : Fl :=
  if l.isEmpty then none else some (l.sum / l.length)

/-- IEEE-style square root parameterised by a kernel `sqrtFn` for the value on
nonnegative inputs: the square root of a negative value is NaN, and of a
nonnegative finite value is finite. -/
def flSqrt (sqrtFn : ℚ → ℚ) (v : Fl) : Fl :=
  match v with
  | some q => if q < 0 then none else some (sqrtFn q)
  | none => none

/-! ## SampleQueue (`vlf_system.py`, `VLFMonitoringSystem._audio_callback`)

`queue.Queue(maxsize=10)` with the drop-oldest overflow policy of
`_audio_callback`: `put_nowait`; on `queue.Full`, `get_nowait()` (evicting the
oldest frame) followed by `put_nowait`. -/

/-- `self.audio_queue = queue.Queue(maxsize=10)` (`vlf_system.py` line 48). -/
def audioQueueCapacity : ℕ := 10

/-- Bounded drop-oldest insertion: append when below capacity, otherwise evict
the head (oldest element) first.  Shared by the sample queue (capacity 10) and
the baseline history (capacity 300). -/
def boundedPush {α : Type} (cap : ℕ) (q : List α) (x : α) : List α :=
  if q.length < cap then q ++ [x] else q.tail ++ [x]

/-- One `_audio_callback` enqueue: `put_nowait`, and on `queue.Full` a
`get_nowait` (dropping the oldest frame) followed by `put_nowait`. -/
def pushFrame {α : Type} (q : List α) (x : α) : List α :=
  boundedPush audioQueueCapacity q x

/-- Pushing a whole arrival sequence into the queue, with no consumer. -/
def pushFrames {α : Type} (q : List α) (xs : List α) : List α :=
  xs.foldl pushFrame q

/-! ## MeasurementSink (`realtime_storage.py`, `vlf_system.py._store_signals`) -/

/-- A row of the `vlf_measurements` table (also the `VLFMeasurement`
dataclass): timestamp, station id, frequency, amplitude, phase. -/
structure Measurement where
  timestamp : ℚ
  station_id : String
  frequency : ℚ
  amplitude : ℚ
  phase : ℚ
  deriving DecidableEq, Repr

/-- `RealtimeStorage.store_measurement`: a single-row INSERT. -/
def store_measurement (db : List Measurement) (m : Measurement) : List Measurement :=
  db ++ [m]

/-- `RealtimeStorage.store_batch`: one transactional `executemany` INSERT of a
whole list of measurements. -/
def store_batch (db : List Measurement) (ms : List Measurement) : List Measurement :=
  db ++ ms

/-- `VLFMonitoringSystem._store_signals`: stores every signal of the chunk
immediately and individually via `store_measurement`. -/
def storeSignals (db : List Measurement) (ms : List Measurement) : List Measurement :=
  ms.foldl store_measurement db

/-- `RealtimeStorage.get_recent_data`: rows of the station whose timestamp is
newer than the cutoff (row order inside the result is abstracted away). -/
def getRecentData (db : List Measurement) (station : String) (cutoff : ℚ) :
    List Measurement :=
  db.filter (fun m => m.station_id = station ∧ cutoff < m.timestamp)

/-! ## BandExtractor filter construction (`vlf_processor.py`, `VLFProcessor._create_filters`) -/

/-- A station's band edges in Hz: `(station, (low_hz, high_hz))`, as built by
`_create_test_bands` / `_create_vlf_bands`. -/
abbrev Band := String × ℚ × ℚ

/-- The guard of `_create_filters` line 94:
`0.01 <= low_norm < high_norm <= 0.99` on the Nyquist-normalised band edges. -/
def bandAccepted (sample_rate : ℚ) (b : Band) : Bool :=
  let nyquist := sample_rate / 2
  decide (1/100 ≤ b.2.1 / nyquist ∧ b.2.1 / nyquist < b.2.2 / nyquist ∧
    b.2.2 / nyquist ≤ 99/100)

/-- `VLFProcessor._create_filters` (lines 85-102), parameterised by the
`signal.butter` design kernel (applied to the normalised cutoffs): a filter is
installed exactly when the guard accepts the band; any other band is skipped
with a warning — the guard, not the `except` arm, performs the exclusion, so
exclusion never raises. -/
def createFilters {α : Type} (butterFn : ℚ → ℚ → α) (sample_rate : ℚ)
    (bands : List Band) : List (String × α) :=
  bands.filterMap (fun b =>
    if bandAccepted sample_rate b then
      some (b.1, butterFn (b.2.1 / (sample_rate / 2)) (b.2.2 / (sample_rate / 2)))
    else
      none)

/-- Whether `createFilters` installed a filter for the station. -/
def stationHasFilter {α : Type} (filters : List (String × α)) (st : String) : Bool :=
  filters.any (fun p => p.1 = st)

/-- `VLFProcessor._create_test_bands` (lines 48-64): the i-th configured
station gets the i-th audio test centre frequency with bandwidth 50 Hz
(stations beyond the six test frequencies get no band). -/
def createTestBands (stations : List String) : List Band :=
  (stations.zip [300, 600, 900, 1200, 1500, 1800]).map
    (fun p => (p.1, p.2 - 25, p.2 + 25))

/-! ## BaselineTracker (`vlf_audio_processor.py`, `VLFAudioProcessor.update_baseline`) -/

/-- The per-station baseline snapshot: {'mean', 'std', 'min', 'max'}. -/
structure BaselineStats where
  mean : ℚ
  std : ℚ
  min : ℚ
  max : ℚ
  deriving DecidableEq, Repr

/-- `self.baseline_samples = 300` (`vlf_audio_processor.py` line 49). -/
def baselineSamples : ℕ := 300

/-- `np.mean` of a history (0 on the empty list, which never occurs here). -/
def npMean (l : List ℚ) : ℚ := l.sum / l.length

/-- The radicand of `np.std`: the population variance, the mean of the squared
deviations from the mean. -/
def npVariance (l : List ℚ) : ℚ :=
  ((l.map (fun x => (x - npMean l) ^ 2)).sum) / l.length

/-- `np.min` of a nonempty history. -/
def npMin (l : List ℚ) : ℚ :=
  match l with
  | [] => 0
  | x :: xs => xs.foldl min x

/-- `np.max` of a nonempty history. -/
def npMax (l : List ℚ) : ℚ :=
  match l with
  | [] => 0
  | x :: xs => xs.foldl max x

/-- The snapshot `update_baseline` publishes from a history, with `np.std`
computed as the square root (kernel `sqrtFn`) of the population variance. -/
def mkStats (sqrtFn : ℚ → ℚ) (l : List ℚ) : BaselineStats :=
  ⟨npMean l, sqrtFn (npVariance l), npMin l, npMax l⟩

/-- One `VLFAudioProcessor.update_baseline(station, amplitude)` call on a
single station's state `(history, published snapshot)` (lines 172-198):
a non-finite amplitude is ignored; otherwise the amplitude is appended and the
oldest value popped once the history exceeds 300; with at least 10 values,
(mean, std, min, max) are recomputed and published provided all four are
finite (in this model only `std`, the square root of the variance, could be
non-finite — exactly when the variance is negative). -/
def updateBaseline (sqrtFn : ℚ → ℚ) (st : List ℚ × Option BaselineStats) (a : Fl) :
    List ℚ × Option BaselineStats :=
  match a with
  | none => st
  | some amp =>
      let h1 := st.1 ++ [amp]
      let h2 := if baselineSamples < h1.length then h1.tail else h1
      if 10 ≤ h2.length then
        match flSqrt sqrtFn (some (npVariance h2)) with
        | some sdv => (h2, some ⟨npMean h2, sdv, npMin h2, npMax h2⟩)
        | none => (h2, st.2)
      else (h2, st.2)

/-- A station's baseline state after a sequence of amplitude updates, starting
from the fresh state (empty history, no snapshot). -/
def runBaseline (sqrtFn : ℚ → ℚ) (amps : List Fl) : List ℚ × Option BaselineStats :=
  amps.foldl (updateBaseline sqrtFn) ([], none)

/-! ## Signal values (`vlf_processor.py`, dataclass `VLFSignal`) -/

/-- The `VLFSignal` dataclass; the numeric per-chunk fields are Python floats
(`Fl`), since the processors may in principle produce non-finite values. -/
structure VLFSignal where
  timestamp : ℚ
  frequency : Fl
  amplitude : Fl
  phase : Fl
  station_id : String
  deriving DecidableEq, Repr

/-! ## Anomaly checking (`vlf_audio_processor.py`, `VLFAudioProcessor.check_anomalies`)

`check_anomalies` parses each signal-map key as `prefix_N` via
`int(band_id.split('_')[1]) - 1` and indexes `self.stations` with the result
(Python semantics: negative indices wrap, out-of-range raises, and the raise is
swallowed by the per-band `except` arm).  Python strings are modelled as
`List Char` so that the parsing is a structural computation. -/

/-- A Python string as its character sequence. -/
abbrev PyStr := List Char

/-- Python `s.split('_')`. -/
def pySplitUnderscore : PyStr → List PyStr
  | [] => [[]]
  | c :: rest =>
      let r := pySplitUnderscore rest
      if c = '_' then [] :: r
      else
        match r with
        | [] => [[c]]
        | w :: ws => (c :: w) :: ws

/-- Digit value of a character, `none` if not a decimal digit. -/
def digitVal (c : Char) : Option ℕ :=
  if '0' ≤ c ∧ c ≤ '9' then some (c.toNat - '0'.toNat) else none

/-- An unsigned decimal numeral; `none` (a ValueError) on the empty string or
any non-digit character. -/
def pyParseNat (s : PyStr) : Option ℕ :=
  match s with
  | [] => none
  | _ =>
      s.foldl (fun acc c =>
        match acc, digitVal c with
        | some a, some d => some (a * 10 + d)
        | _, _ => none) (some 0)

/-- Python `int(s)` for the band suffix: an optional sign followed by digits
(`none` models ValueError; surrounding whitespace is not modelled — the band
ids in question carry plain digits). -/
def pyParseInt (s : PyStr) : Option ℤ :=
  match s with
  | '-' :: rest => (pyParseNat rest).map (fun n => -(n : ℤ))
  | '+' :: rest => (pyParseNat rest).map (fun n => (n : ℤ))
  | _ => (pyParseNat s).map (fun n => (n : ℤ))

/-- Python list indexing with negative-index wrap-around; `none` models an
IndexError. -/
def pyGetElem {α : Type} (l : List α) (i : ℤ) : Option α :=
  if 0 ≤ i then l.get? i.toNat
  else if (l.length : ℤ) + i < 0 then none
  else l.get? ((l.length : ℤ) + i).toNat

/-- `int(band_id.split('_')[1]) - 1` (line 206); `none` models the IndexError
(no `'_'`-separated second component) or ValueError (non-numeric suffix), both
swallowed by the `except` arm. -/
def parseBandNum (bandId : PyStr) : Option ℤ :=
  match (pySplitUnderscore bandId).get? 1 with
  | none => none
  | some s => (pyParseInt s).map (fun k => k - 1)

/-- Lines 206-210: parse the band number and resolve it against
`self.stations`; `band_num >= len(stations)` is an explicit `continue`, a
too-negative index raises (and is swallowed). -/
def resolveStation (stations : List PyStr) (bandId : PyStr) : Option PyStr :=
  match parseBandNum bandId with
  | none => none
  | some bandNum =>
      if (stations.length : ℤ) ≤ bandNum then none
      else pyGetElem stations bandNum

/-- The kinds of anomaly messages `check_anomalies` can emit. -/
inductive AnomalyKind
  | spike
  | drop
  | loss
  deriving DecidableEq, Repr

/-- One anomaly report (the formatted message string is abstracted to the band
id, the resolved station and the message kind). -/
structure Anomaly where
  band_id : PyStr
  station : PyStr
  kind : AnomalyKind
  deriving DecidableEq, Repr

/-- The anomaly entries `check_anomalies` (lines 204-228) produces for one
`(band_id, signal)` item of the signal map: after resolving the station, with
an established baseline and a finite amplitude, a z-score spike/drop when
`std > 0` and `|amplitude - mean| / std > 3.0`, and independently a possible
signal loss when `amplitude < 0.1 * mean` and `mean > 0.001`. -/
def anomaliesFor (stations : List PyStr)
    (baselines : List (PyStr × BaselineStats))
    (item : PyStr × VLFSignal) : List Anomaly :=
  match resolveStation stations item.1 with
  | none => []
  | some station =>
      match baselines.lookup station with
      | none => []
      | some bl =>
          match item.2.amplitude with
          | none => []
          | some amp =>
              (if 0 < bl.std ∧ 3 < |amp - bl.mean| / bl.std then
                (if bl.mean < amp then
                  [⟨item.1, station, AnomalyKind.spike⟩]
                else
                  [⟨item.1, station, AnomalyKind.drop⟩])
              else []) ++
              (if amp < bl.mean * (1/10) ∧ 1/1000 < bl.mean then
                [⟨item.1, station, AnomalyKind.loss⟩]
              else [])

/-- `VLFAudioProcessor.check_anomalies` over the whole signal map. -/
def check_anomalies (stations : List PyStr)
    (baselines : List (PyStr × BaselineStats))
    (signals : List (PyStr × VLFSignal)) : List Anomaly :=
  signals.flatMap (anomaliesFor stations baselines)

/-- Whether an anomaly of the given kind was reported for the given band id. -/
def hasAnomaly (l : List Anomaly) (bandId : PyStr) (k : AnomalyKind) : Bool :=
  l.any (fun e => e.band_id = bandId ∧ e.kind = k)

/-! ## VLFAudioProcessor.process_audio_buffer (`vlf_audio_processor.py` lines 88-170)

The numeric kernels (Hann window, FFT power spectrum, square root) are
parameters of the embedding; every theorem holds for arbitrary kernels exactly
because the source guards every kernel output: `nan_to_num` on the power
spectrum (line 114), the clamp of a non-finite or negative band power to 0
(lines 135-136), the 0.0 fallback for a non-finite raw amplitude (line 139),
the target-frequency fallback for a non-finite bin frequency (line 142) and
the [0, 1] amplitude clamp (line 144). -/

/-- The opaque numeric kernels of the audio processor: Hann window of a given
size, power spectrum `|fft(windowed)|^2`, and square root. -/
structure AudioKernels where
  hannFn : ℕ → List ℚ
  fftPow : List ℚ → List Fl
  sqrtFn : ℚ → ℚ

/-- The audio processor's configuration: sample rate, monitored stations and
per-station centre frequencies in kHz. -/
structure AudioConfig where
  sample_rate : ℚ
  stations : List String
  station_freqs : List (String × ℚ)

/-- `np.fft.fftfreq(n, 1/sample_rate)`: frequencies `k*sr/n` for the first
half (including 0), `(k-n)*sr/n` for the second half. -/
def npFFTFreq (n : ℕ) (sample_rate : ℚ) : List ℚ :=
  (List.range n).map (fun k =>
    (if k ≤ (n - 1) / 2 then (k : ℤ) else (k : ℤ) - n) * sample_rate / n)

/-- `np.argmin(np.abs(freq_bins - target))`: first index attaining the
minimum distance (0 on the empty list, where numpy would raise). -/
def argminAbsDist (l : List ℚ) (target : ℚ) : ℕ :=
  match l with
  | [] => 0
  | x :: xs =>
      (xs.enum.foldl (fun best p =>
        if |p.2 - target| < |best.2 - target| then (p.1 + 1, p.2) else best)
        ((0 : ℕ), x)).1

/-- Python `int(q)`: truncation toward zero. -/
def pyInt (q : ℚ) : ℤ := if 0 ≤ q then q.floor else q.ceil

/-- Lines 133-136: `np.mean` of the `[start_bin:end_bin]` slice of the power
spectrum, with a non-finite (including the NaN mean of an empty slice) or
negative result clamped to 0. -/
def bandPowerOf (ps : List ℚ) (startBin endBin : ℕ) : ℚ :=
  match npMeanFl ((ps.take endBin).drop startBin) with
  | none => 0
  | some v => if v < 0 then 0 else v

/-- Lines 138-139: `sqrt(band_power) / actual_buffer_size`, with a non-finite
result replaced by 0.0. -/
def amplitudeOf (K : AudioKernels) (n : ℕ) (bp : ℚ) : ℚ :=
  match (flSqrt K.sqrtFn (some bp)).map (fun s => s / (n : ℚ)) with
  | some a => a
  | none => 0

/-- Line 144: `amplitude = max(0.0, min(amplitude, 1.0))`. -/
def clampAmplitude (a : ℚ) : ℚ := max 0 (min a 1)

/-- Lines 141-142: `freq_bins[freq_bin_idx] / 1000`, falling back to the
configured target frequency when non-finite (or out of range). -/
def actualFreqOf (freqBins : List ℚ) (idx : ℕ) (targetFreq : ℚ) : ℚ :=
  match (freqBins.get? idx).map (fun v => v / 1000) with
  | some v => v
  | none => targetFreq / 1000

/-- Lines 119-158, one station of the loop: skip stations outside the 3-80 kHz
VLF range; locate the nearest frequency bin; average the band's power; derive
the clamped amplitude and the bin frequency; phase is the constant 0.0.  The
`none` arms model the skips: the out-of-range `continue` and the swallowed
per-station exceptions (argmin of an empty array, division by a zero bin
width). -/
def processStation (K : AudioKernels) (C : AudioConfig) (n : ℕ)
    (powerSpectrum : List ℚ) (freqBins : List ℚ) (tNow : ℚ)
    (station : String) : Option VLFSignal :=
  let targetFreq := ((C.station_freqs.lookup station).getD 20) * 1000
  if targetFreq < 3000 ∨ 80000 < targetFreq then none
  else if freqBins = [] then none
  else if C.sample_rate / (n : ℚ) = 0 then none
  else
    let idx := argminAbsDist freqBins targetFreq
    let bwBins := (max 1 (pyInt (100 / (C.sample_rate / (n : ℚ))))).toNat
    let startBin := idx - bwBins / 2
    let endBin := min powerSpectrum.length (idx + bwBins / 2 + 1)
    let amplitude := clampAmplitude (amplitudeOf K n
      (bandPowerOf powerSpectrum startBin endBin))
    some ⟨tNow, some (actualFreqOf freqBins idx targetFreq), some amplitude,
      some 0, station⟩

/-- `VLFAudioProcessor.process_audio_buffer` (lines 88-170): empty input is
returned as the empty map; non-finite samples set the one-time warning flag
(returning how many warnings this call logged) and are sanitised to zero by
`nan_to_num`; the sanitised data is windowed and turned into a power spectrum
that is itself sanitised; each configured station is processed in turn. -/
def process_audio_buffer (K : AudioKernels) (C : AudioConfig)
    (nanWarned : Bool) (audio : List Fl) (tNow : ℚ) :
    Bool × ℕ × List VLFSignal :=
  if audio.isEmpty then (nanWarned, 0, [])
  else
    let hasBad := audio.any (fun v => !(isFiniteF v))
    let warns := if hasBad && !nanWarned then 1 else 0
    let warned := nanWarned || hasBad
    let data := audio.map nanToNum
    let n := data.length
    let window := K.hannFn n
    let windowed := List.zipWith (· * ·) data window
    let powerSpectrum := (K.fftPow windowed).map nanToNum
    let freqBins := npFFTFreq n C.sample_rate
    let signals := C.stations.filterMap
      (processStation K C n powerSpectrum freqBins tNow)
    (warned, warns, signals)

/-- One lifetime step: process a buffer, carrying the warning flag and adding
the warnings this call logged. -/
def audioLifetimeStep (K : AudioKernels) (C : AudioConfig)
    (acc : Bool × ℕ) (b : List Fl × ℚ) : Bool × ℕ :=
  let r := process_audio_buffer K C acc.1 b.1 b.2
  (r.1, acc.2 + r.2.1)

/-- A whole processor lifetime: fold the buffers through the processor,
accumulating the warning flag and the total number of data-invalid warnings
logged. -/
def runAudioBuffers (K : AudioKernels) (C : AudioConfig)
    (buffers : List (List Fl × ℚ)) : Bool × ℕ :=
  buffers.foldl (audioLifetimeStep K C) (false, 0)

/-! ## VLFProcessor.process_chunk (`vlf_processor.py` lines 104-178)

The scipy kernels (Butterworth application via `filtfilt`/`lfilter`, the
Hilbert mean angle, FFT magnitudes, square root) are parameters; the guard and
branch structure around them is concrete.  Multi-channel down-mixing is not
modelled (the embedding takes the mono path).  `np.argmax` over magnitudes
that may contain NaN is modelled by a comparison-based fold; no theorem below
depends on the selected value. -/

/-- The opaque numeric kernels of the chunk processor. -/
structure ChunkKernels where
  filtfiltFn : List ℚ → List ℚ → List ℚ → List ℚ
  lfilterFn : List ℚ → List ℚ → List ℚ → List ℚ
  hilbertMeanAngle : List ℚ → ℚ
  fftMag : List ℚ → List Fl
  sqrtFn : ℚ → ℚ

/-- IEEE-style `x > y` on two possibly-NaN values. -/
def flGtF (x y : Fl) : Bool :=
  match x, y with
  | some a, some b => decide (b < a)
  | _, _ => false

/-- `np.max(np.abs(data))` (0 on the empty list, which `process_chunk` never
reaches). -/
def maxAbs (l : List ℚ) : ℚ := (l.map (fun x => |x|)).foldl max 0

/-- Lines 115-116: max-abs normalisation, guarded against an all-zero chunk
(the guard prevents a 0/0 NaN from being created here). -/
def normalizeChunk (data : List ℚ) : List ℚ :=
  if 0 < maxAbs data then data.map (fun x => x / maxAbs data) else data

/-- Lines 122-125: zero-phase forward-backward filtering when the chunk holds
at least `3 * len(b)` samples, otherwise the single-pass causal fallback. -/
def applyFilter (K : ChunkKernels) (b a : List ℚ) (data : List ℚ) : List ℚ :=
  if b.length * 3 ≤ data.length then K.filtfiltFn b a data else K.lfilterFn b a data

/-- Line 127: `np.sqrt(np.mean(filtered**2))` — NaN when the filtered series
is empty or the radicand is negative. -/
def rmsAmplitude (K : ChunkKernels) (filtered : List ℚ) : Fl :=
  flSqrt K.sqrtFn (npMeanFl (filtered.map (fun x => x * x)))

/-- First component of the magnitude-argmax over (frequency, magnitude)
pairs, keeping the first maximum under NaN-rejecting comparisons. -/
def argmaxMag (pairs : List (ℚ × Fl)) : ℚ :=
  match pairs with
  | [] => 0
  | p :: ps => (ps.foldl (fun best q => if flGtF q.2 best.2 then q else best) p).1

/-- `_find_dominant_frequency` lines 166-178: the frequency of the magnitude
peak over the positive-frequency bins, 0.0 when no positive bin exists. -/
def dominantFreqMain (K : ChunkKernels) (sample_rate : ℚ) (data : List ℚ) : ℚ :=
  let freqs := npFFTFreq data.length sample_rate
  let pairs := (freqs.zip (K.fftMag data)).filter (fun p => 0 < p.1)
  if pairs.isEmpty then 0 else argmaxMag pairs

/-- `VLFProcessor._find_dominant_frequency` (lines 161-178): signals shorter
than 64 samples report 0.0 without estimating. -/
def findDominantFrequency (K : ChunkKernels) (sample_rate : ℚ)
    (data : List ℚ) : ℚ :=
  if data.length < 64 then 0 else dominantFreqMain K sample_rate data

/-- Lines 118-151, one station of the loop: filter the chunk, take the RMS
amplitude, estimate the dominant frequency (displayed only outside test mode),
and set the phase to the mean angle of the analytic signal exactly when the
RMS amplitude exceeds the 1e-6 noise floor — otherwise the phase is the
constant 0.0 (an IEEE comparison, so a NaN RMS also yields 0.0). -/
def processStationChunk (K : ChunkKernels) (sample_rate : ℚ) (testMode : Bool)
    (station_frequencies : List (String × ℚ)) (data : List ℚ)
    (station : String) (b a : List ℚ) (tNow : ℚ) : VLFSignal :=
  let filtered := applyFilter K b a data
  let rms := rmsAmplitude K filtered
  let domFreq := findDominantFrequency K sample_rate filtered
  let displayFreq :=
    if testMode then (station_frequencies.lookup station).getD 20
    else domFreq / 1000
  let phase : ℚ :=
    if flGtQ rms (1/1000000) then K.hilbertMeanAngle filtered else 0
  ⟨tNow, some displayFreq, rms, some phase, station⟩

/-- `VLFProcessor.process_chunk` (lines 104-159): chunks shorter than 256
samples yield the empty map; otherwise the chunk is max-abs normalised and
every filtered station contributes one signal. -/
def process_chunk (K : ChunkKernels) (sample_rate : ℚ) (testMode : Bool)
    (station_frequencies : List (String × ℚ))
    (filters : List (String × (List ℚ × List ℚ))) (data : List ℚ) (tNow : ℚ) :
    List (String × VLFSignal) :=
  if data.length < 256 then []
  else
    let d := normalizeChunk data
    filters.map (fun p =>
      (p.1, processStationChunk K sample_rate testMode station_frequencies d
        p.1 p.2.1 p.2.2 tNow))

/-- The variant of `process_chunk` that always takes the zero-phase
(`filtfilt`) branch and always estimates the dominant frequency (never the
short-signal 0.0 branch); used to state that the fallback branches are
unreachable from `process_chunk`. -/
def process_chunk_zero_phase (K : ChunkKernels) (sample_rate : ℚ)
    (testMode : Bool) (station_frequencies : List (String × ℚ))
    (filters : List (String × (List ℚ × List ℚ))) (data : List ℚ) (tNow : ℚ) :
    List (String × VLFSignal) :=
  if data.length < 256 then []
  else
    let d := normalizeChunk data
    filters.map (fun p =>
      (p.1,
        let filtered := K.filtfiltFn p.2.1 p.2.2 d
        let rms := rmsAmplitude K filtered
        let domFreq := dominantFreqMain K sample_rate filtered
        let displayFreq :=
          if testMode then (station_frequencies.lookup p.1).getD 20
          else domFreq / 1000
        let phase : ℚ :=
          if flGtQ rms (1/1000000) then K.hilbertMeanAngle filtered else 0
        ⟨tNow, some displayFreq, rms, some phase, p.1⟩))

/-! ## Orchestrator stop (`vlf_system.py`, `VLFMonitoringSystem.stop_monitoring`)

State of the monitoring system as far as `stop_monitoring` touches it: the
running flag, the audio stream (`some ()` while open), the bounded sample
queue, and the durable store.  `stop_monitoring` clears the flag, closes and
drops the stream (exceptions while closing are caught and logged), joins the
processing thread, drains the queue, and performs no storage operation. -/

structure SystemState where
  is_monitoring : Bool
  stream : Option Unit
  audio_queue : List (List ℚ)
  db : List Measurement
  deriving DecidableEq, Repr

/-- `VLFMonitoringSystem.stop_monitoring` (`vlf_system.py` lines 178-201). -/
def stopMonitoring (s : SystemState) : SystemState :=
  { s with is_monitoring := false, stream := none, audio_queue := [] }

end SuperSID

namespace SuperSID

/-! ### Storage lemmas -/

/-- Folding `store_measurement` over a chunk appends every row in order. -/
theorem storeSignals_eq_append (sigs : List Measurement) :
    ∀ db : List Measurement, storeSignals db sigs = db ++ sigs := by
  induction sigs with
  | nil => intro db; simp [storeSignals]
  | cons m ms ih =>
      intro db
      have : storeSignals db (m :: ms) = storeSignals (db ++ [m]) ms := rfl
      rw [this, ih]
      simp

/-! ### Queue lemmas -/

/-- Drop-oldest fold: starting from a buffer holding at most the capacity, the
surviving elements are exactly the newest `cap` elements of the combined
arrival sequence, in arrival order. -/
theorem boundedPush_foldl_eq_drop {α : Type} (cap : ℕ) (hcap : 0 < cap) (xs : List α) :
    ∀ (q : List α), q.length ≤ cap →
      xs.foldl (boundedPush cap) q = (q ++ xs).drop (q.length + xs.length - cap) := by
  induction xs with
  | nil =>
      intro q hq
      simp
      have : q.length - cap = 0 := by omega
      simp [this]
  | cons x xs ih =>
      intro q hq
      by_cases hlt : q.length < cap
      · have hstep : (x :: xs).foldl (boundedPush cap) q =
            xs.foldl (boundedPush cap) (q ++ [x]) := by
          simp [boundedPush, hlt]
        have hlen1 : (q ++ [x]).length ≤ cap := by
          simp
          omega
        rw [hstep, ih (q ++ [x]) hlen1]
        have hassoc : (q ++ [x]) ++ xs = q ++ (x :: xs) := by simp
        rw [hassoc]
        congr 1
        simp
        omega
      · have hlen : q.length = cap := by omega
        have hstep : (x :: xs).foldl (boundedPush cap) q =
            xs.foldl (boundedPush cap) (q.tail ++ [x]) := by
          simp [boundedPush, hlt]
        have hne : q ≠ [] := by
          intro h
          rw [h] at hlen
          simp at hlen
          omega
        have hpos : 0 < q.length := List.length_pos.mpr hne
        have hlen2 : (q.tail ++ [x]).length ≤ cap := by
          simp [List.length_tail]
          omega
        rw [hstep, ih (q.tail ++ [x]) hlen2]
        have hassoc : (q.tail ++ [x]) ++ xs = q.tail ++ (x :: xs) := by simp
        rw [hassoc]
        have hcons : q ++ (x :: xs) = q.head hne :: (q.tail ++ (x :: xs)) := by
          rw [← List.cons_append, List.head_cons_tail]
        rw [hcons]
        have hamt : q.length + (x :: xs).length - cap = xs.length + 1 := by
          simp
          omega
        rw [hamt, List.drop_succ_cons]
        congr 1
        simp [List.length_tail]
        omega

/-- The sample-queue fold is the generic drop-oldest fold at capacity 10. -/
theorem pushFrames_eq_drop {α : Type} (xs : List α) :
    ∀ (q : List α), q.length ≤ audioQueueCapacity →
      pushFrames q xs = (q ++ xs).drop (q.length + xs.length - audioQueueCapacity) :=
  fun q hq =>
    boundedPush_foldl_eq_drop audioQueueCapacity (by norm_num [audioQueueCapacity]) xs q hq

/-- Drop-oldest insertion never exceeds the capacity. -/
theorem boundedPush_length_le {α : Type} (cap : ℕ) (hcap : 0 < cap)
    (q : List α) (x : α) (hq : q.length ≤ cap) :
    (boundedPush cap q x).length ≤ cap := by
  by_cases hlt : q.length < cap
  · simp [boundedPush, hlt]
    omega
  · have hne : q ≠ [] := by
      intro h
      rw [h] at hlt
      simp at hlt
      omega
    simp [boundedPush, hlt, List.length_tail]
    have : 0 < q.length := List.length_pos.mpr hne
    omega

end SuperSID

namespace SuperSID

/-! ### Claim C5 — bounded queue, drop-oldest -/

/-- C5: for the bounded sample queue of capacity 10 (`audioQueueCapacity`),
pushing any arrival sequence into the empty queue without consumption leaves
exactly `min length 10` frames; in particular more frames than the capacity
leave the length equal to the capacity, and the survivors are precisely the
most recent frames in arrival order (each overflow evicted the oldest frame). -/
theorem c5_queue_drop_oldest {α : Type} (frames : List α) :
    (pushFrames [] frames).length = min frames.length audioQueueCapacity ∧
    pushFrames [] frames = frames.drop (frames.length - audioQueueCapacity) := by
  have h := pushFrames_eq_drop frames [] (by simp)
  simp at h
  refine ⟨?_, h⟩
  rw [h]
  simp [List.length_drop]
  omega

/-! ### Claim C7 — stop is idempotent and total -/

/-- C7: `stop_monitoring` never raises (it is a total state transformation in
which the exceptions around closing the stream are caught in the source), and
calling it twice in succession is the same as calling it once; after the
second call the running flag is cleared, the audio stream is closed (dropped),
and the sample queue is drained. -/
theorem c7_stop_idempotent (s : SystemState) :
    stopMonitoring (stopMonitoring s) = stopMonitoring s ∧
    (stopMonitoring (stopMonitoring s)).is_monitoring = false ∧
    (stopMonitoring (stopMonitoring s)).stream = none ∧
    (stopMonitoring (stopMonitoring s)).audio_queue = [] :=
  ⟨rfl, rfl, rfl, rfl⟩

/-! ### Claim C6 — storage has no batch buffer -/

/-- C6 counterexample: the claimed batching contract implies that storing a
single signal (fewer than the default batch size of 10, with no stop) leaves
the durable store unchanged, the record being held in an in-memory buffer.
The code has no such buffer: `_store_signals` inserts each signal immediately
via `store_measurement`, so storing one signal into an empty store already
yields one durable row. -/
theorem c6_counterexample :
    ¬ (∀ (db : List Measurement) (m : Measurement), storeSignals db [m] = db) := by
  intro h
  have hc := h [] ⟨0, "NAA", 24, 1/100, 0⟩
  simp [storeSignals, store_measurement] at hc

/-- C6 amended: the orchestrator persists every signal of a chunk immediately
and individually (`_store_signals` performs one `store_measurement` INSERT per
signal — there is no in-memory batch buffer); `store_batch` appends a whole
list of measurements in a single transaction; `stop_monitoring` performs no
storage operation, so a normal stop loses nothing (there is never anything
buffered); and every record stored this way is returned by subsequent range
queries matching its station and time window. -/
theorem c6_amended (db sigs ms : List Measurement) (s : SystemState)
    (station : String) (cutoff : ℚ) (m : Measurement) :
    storeSignals db sigs = db ++ sigs ∧
    store_batch db ms = db ++ ms ∧
    (stopMonitoring s).db = s.db ∧
    (m ∈ getRecentData (storeSignals db sigs) station cutoff ↔
      (m ∈ db ∨ m ∈ sigs) ∧ m.station_id = station ∧ cutoff < m.timestamp) := by
  refine ⟨storeSignals_eq_append sigs db, rfl, rfl, ?_⟩
  rw [storeSignals_eq_append sigs db]
  simp [getRecentData, List.mem_filter, and_assoc]
  tauto

end SuperSID

namespace SuperSID

/-! ### Claim C1 — filter construction boundary -/

/-- `filterMap` of a guarded constructor is filter-then-map. -/
theorem filterMap_guard_eq {α β : Type} (p : α → Bool) (f : α → β) (l : List α) :
    l.filterMap (fun a => if p a then some (f a) else none) = (l.filter p).map f := by
  induction l with
  | nil => simp
  | cons x xs ih =>
      by_cases h : p x <;> simp [h, ih]

/-- C1 counterexample: the claim demands the strict open interval
`0.01 < low < high < 0.99`, but the source guard is closed at both ends
(`0.01 <= low_norm < high_norm <= 0.99`).  With `sample_rate = 55000` the test
band 275-325 Hz has `low_norm = 275/27500 = 0.01` exactly: the claim says this
station is excluded, yet `_create_filters` installs its filter. -/
theorem c1_counterexample :
    ¬ (∀ (sample_rate : ℚ) (bands : List Band) (b : Band), b ∈ bands →
        (stationHasFilter (createFilters (fun l h => (l, h)) sample_rate bands) b.1 = true ↔
          (1/100 < b.2.1 / (sample_rate / 2) ∧
           b.2.1 / (sample_rate / 2) < b.2.2 / (sample_rate / 2) ∧
           b.2.2 / (sample_rate / 2) < 99/100))) := by
  intro h
  have hc := h 55000 [("S1", 275, 325)] ("S1", 275, 325) (by simp)
  have hl : stationHasFilter
      (createFilters (fun l h => (l, h)) 55000 [("S1", 275, 325)]) "S1" = true := by
    norm_num [stationHasFilter, createFilters, bandAccepted]
  have hr := (hc.mp hl).1
  norm_num at hr

/-- C1 amended: `_create_filters` installs a band-pass filter for exactly the
stations whose Nyquist-normalised cutoffs satisfy the closed-boundary
condition `0.01 ≤ low_norm < high_norm ≤ 0.99` (so a band sitting exactly on
0.01 or 0.99 is still filtered, and `low_norm ≥ high_norm` is excluded); every
other station is left out of the filter set by the guard itself, without
raising an exception. -/
theorem c1_amended {α : Type} (butterFn : ℚ → ℚ → α) (sample_rate : ℚ)
    (bands : List Band) :
    createFilters butterFn sample_rate bands =
      (bands.filter (bandAccepted sample_rate)).map
        (fun b => (b.1, butterFn (b.2.1 / (sample_rate / 2)) (b.2.2 / (sample_rate / 2)))) ∧
    ∀ b : Band, bandAccepted sample_rate b = true ↔
      (1/100 ≤ b.2.1 / (sample_rate / 2) ∧
       b.2.1 / (sample_rate / 2) < b.2.2 / (sample_rate / 2) ∧
       b.2.2 / (sample_rate / 2) ≤ 99/100) := by
  constructor
  · exact filterMap_guard_eq (bandAccepted sample_rate) _ bands
  · intro b
    simp [bandAccepted]

end SuperSID

namespace SuperSID

/-! ### Baseline lemmas and claim C3 -/

/-- The population variance is nonnegative. -/
theorem npVariance_nonneg (l : List ℚ) : 0 ≤ npVariance l := by
  unfold npVariance
  apply div_nonneg
  · apply List.sum_nonneg
    intro x hx
    simp only [List.mem_map] at hx
    obtain ⟨y, _, rfl⟩ := hx
    positivity
  · positivity

/-- Length after a drop-oldest insertion, starting at or below capacity. -/
theorem boundedPush_length_eq {α : Type} (cap : ℕ) (hcap : 0 < cap)
    (q : List α) (x : α) (hq : q.length ≤ cap) :
    (boundedPush cap q x).length = min (q.length + 1) cap := by
  by_cases hlt : q.length < cap
  · simp [boundedPush, hlt]
    omega
  · have hne : q ≠ [] := by
      intro he
      rw [he] at hlt
      simp at hlt
      omega
    have hpos : 0 < q.length := List.length_pos.mpr hne
    simp [boundedPush, hlt, List.length_tail]
    omega

/-- A finite-amplitude `update_baseline` step: the history evolves by a
drop-oldest insertion at capacity 300, and the snapshot is (re)published
exactly when the new history holds at least 10 values (the variance being
nonnegative, `std` is always finite). -/
theorem updateBaseline_some (f : ℚ → ℚ) (h : List ℚ) (bl : Option BaselineStats)
    (amp : ℚ) (hlen : h.length ≤ baselineSamples) :
    updateBaseline f (h, bl) (some amp) =
      (boundedPush baselineSamples h amp,
        if 10 ≤ (boundedPush baselineSamples h amp).length then
          some (mkStats f (boundedPush baselineSamples h amp))
        else bl) := by
  have hVar : ¬ npVariance (boundedPush baselineSamples h amp) < 0 :=
    not_lt.mpr (npVariance_nonneg _)
  have hh2 : (if baselineSamples < (h ++ [amp]).length then (h ++ [amp]).tail
        else (h ++ [amp]))
      = boundedPush baselineSamples h amp := by
    by_cases hlt : h.length < baselineSamples
    · have hnot : ¬ baselineSamples < (h ++ [amp]).length := by
        simp
        omega
      simp [boundedPush, hnot, hlt]
      intro hc
      exact absurd hc (by omega)
    · have hne : h ≠ [] := by
        intro he
        rw [he] at hlt
        simp [baselineSamples] at hlt
      have hgt : baselineSamples < (h ++ [amp]).length := by
        simp
        omega
      simp [boundedPush, hgt, hlt]
      cases h with
      | nil => exact absurd rfl hne
      | cons y ys =>
          simp
          simp at hlt
          omega
  simp only [updateBaseline]
  rw [hh2]
  by_cases h10 : 10 ≤ (boundedPush baselineSamples h amp).length
  · simp [h10, flSqrt, hVar, mkStats]
  · simp [h10]

/-- The history component of the baseline fold is the drop-oldest fold of the
finite amplitudes at capacity 300. -/
theorem foldl_baseline_fst (f : ℚ → ℚ) (amps : List Fl) :
    ∀ (h : List ℚ) (bl : Option BaselineStats), h.length ≤ baselineSamples →
      (amps.foldl (updateBaseline f) (h, bl)).1
        = (amps.filterMap id).foldl (boundedPush baselineSamples) h := by
  induction amps with
  | nil =>
      intro h bl _
      simp
  | cons a amps ih =>
      intro h bl hlen
      cases a with
      | none =>
          have hst : updateBaseline f (h, bl) none = (h, bl) := rfl
          simp only [List.foldl_cons, hst, List.filterMap_cons, id]
          exact ih h bl hlen
      | some amp =>
          have hstep := updateBaseline_some f h bl amp hlen
          have hlen2 : (boundedPush baselineSamples h amp).length ≤ baselineSamples :=
            boundedPush_length_le _ (by norm_num [baselineSamples]) h amp hlen
          simp only [List.foldl_cons, hstep, List.filterMap_cons, id]
          exact ih _ _ hlen2

/-- The snapshot component of the baseline fold: published exactly when at
least one finite amplitude arrived and the history reached 10 values, and in
that case it is the statistics of the current history. -/
theorem foldl_baseline_snd (f : ℚ → ℚ) (amps : List Fl) :
    ∀ (h : List ℚ) (bl : Option BaselineStats), h.length ≤ baselineSamples →
      (amps.foldl (updateBaseline f) (h, bl)).2 =
        if 1 ≤ (amps.filterMap id).length ∧
            10 ≤ h.length + (amps.filterMap id).length then
          some (mkStats f ((amps.foldl (updateBaseline f) (h, bl)).1))
        else bl := by
  induction amps with
  | nil =>
      intro h bl _
      simp
  | cons a amps ih =>
      intro h bl hlen
      cases a with
      | none =>
          have hst : updateBaseline f (h, bl) none = (h, bl) := rfl
          simp only [List.foldl_cons, hst, List.filterMap_cons, id]
          exact ih h bl hlen
      | some amp =>
          have hstep := updateBaseline_some f h bl amp hlen
          have hlen2 : (boundedPush baselineSamples h amp).length ≤ baselineSamples :=
            boundedPush_length_le _ (by norm_num [baselineSamples]) h amp hlen
          have hp : (boundedPush baselineSamples h amp).length
              = min (h.length + 1) baselineSamples :=
            boundedPush_length_eq _ (by norm_num [baselineSamples]) h amp hlen
          have hple : (boundedPush baselineSamples h amp).length ≤ h.length + 1 := by
            rw [hp]
            exact min_le_left _ _
          have h300 : (10 : ℕ) ≤ baselineSamples := by norm_num [baselineSamples]
          simp only [List.foldl_cons, hstep, List.filterMap_cons, id, List.length_cons]
          rw [ih _ _ hlen2]
          by_cases hk0 : (amps.filterMap id).length = 0
          · have hnil : amps.filterMap id = [] := List.length_eq_zero.mp hk0
            have hfst : ∀ bl' : Option BaselineStats,
                (amps.foldl (updateBaseline f)
                  (boundedPush baselineSamples h amp, bl')).1
                  = boundedPush baselineSamples h amp := by
              intro bl'
              rw [foldl_baseline_fst f amps _ _ hlen2, hnil]
              rfl
            have hc1 : ¬ (1 ≤ (amps.filterMap id).length ∧
                10 ≤ (boundedPush baselineSamples h amp).length
                  + (amps.filterMap id).length) := by
              rw [hk0]
              simp
            rw [if_neg hc1, hk0]
            by_cases h10 : 10 ≤ (boundedPush baselineSamples h amp).length
            · have hc2 : 1 ≤ 0 + 1 ∧ 10 ≤ h.length + (0 + 1) := by
                refine ⟨by omega, ?_⟩
                omega
              rw [if_pos h10, if_pos hc2, hfst _]
            · have hnot2 : ¬ (1 ≤ 0 + 1 ∧ 10 ≤ h.length + (0 + 1)) := by
                intro hcon
                have hmin : 10 ≤ min (h.length + 1) baselineSamples := by
                  refine le_min ?_ h300
                  omega
                rw [← hp] at hmin
                exact h10 hmin
              rw [if_neg h10, if_neg hnot2]
          · have hk1 : 1 ≤ (amps.filterMap id).length := by omega
            by_cases hbig : 10 ≤ (boundedPush baselineSamples h amp).length
                + (amps.filterMap id).length
            · rw [if_pos ⟨hk1, hbig⟩]
              have hc2 : 1 ≤ (amps.filterMap id).length + 1 ∧
                  10 ≤ h.length + ((amps.filterMap id).length + 1) := by
                refine ⟨by omega, by omega⟩
              rw [if_pos hc2]
            · rw [if_neg (fun hcon => hbig hcon.2)]
              have h10 : ¬ 10 ≤ (boundedPush baselineSamples h amp).length := by
                omega
              rw [if_neg h10]
              have hnot2 : ¬ (1 ≤ (amps.filterMap id).length + 1 ∧
                  10 ≤ h.length + ((amps.filterMap id).length + 1)) := by
                intro hcon
                have hP300 : (boundedPush baselineSamples h amp).length
                    < baselineSamples := by omega
                have hPeq : (boundedPush baselineSamples h amp).length
                    = h.length + 1 := by
                  rcases le_total (h.length + 1) baselineSamples with hc | hc
                  · rw [hp]
                    exact min_eq_left hc
                  · rw [hp, min_eq_right hc] at hP300
                    exact absurd hP300 (lt_irrefl _)
                omega
              rw [if_neg hnot2]

/-- C3: starting from a fresh station, while fewer than 10 finite amplitude
updates have been recorded no baseline snapshot exists; from the 10th finite
update on, a snapshot is present and equals the (finite, rational-valued)
mean/std/min/max statistics of the current history; and the history is always
exactly the newest `min count 300` finite amplitudes — it never exceeds 300
values and the oldest value is evicted first. -/
theorem c3_baseline (sqrtFn : ℚ → ℚ) (amps : List Fl) :
    ((runBaseline sqrtFn amps).2.isSome ↔ 10 ≤ (amps.filterMap id).length) ∧
    (runBaseline sqrtFn amps).2 =
      (if 10 ≤ (amps.filterMap id).length then
        some (mkStats sqrtFn (runBaseline sqrtFn amps).1) else none) ∧
    (runBaseline sqrtFn amps).1 =
      (amps.filterMap id).drop ((amps.filterMap id).length - baselineSamples) ∧
    (runBaseline sqrtFn amps).1.length ≤ baselineSamples := by
  have hfst := foldl_baseline_fst sqrtFn amps [] none (by simp)
  have hsnd := foldl_baseline_snd sqrtFn amps [] none (by simp)
  have hdrop := boundedPush_foldl_eq_drop baselineSamples
    (by norm_num [baselineSamples]) (amps.filterMap id) [] (by simp)
  simp only [List.nil_append, List.length_nil, Nat.zero_add] at hdrop
  have hfst' : (runBaseline sqrtFn amps).1 =
      (amps.filterMap id).drop ((amps.filterMap id).length - baselineSamples) := by
    rw [runBaseline, hfst, hdrop]
  have hsnd' : (runBaseline sqrtFn amps).2 =
      (if 10 ≤ (amps.filterMap id).length then
        some (mkStats sqrtFn (runBaseline sqrtFn amps).1) else none) := by
    rw [runBaseline, hsnd]
    by_cases h10 : 10 ≤ (amps.filterMap id).length
    · have hcond : 1 ≤ (amps.filterMap id).length ∧
          10 ≤ List.length ([] : List ℚ) + (amps.filterMap id).length := by
        simp
        omega
      simp [hcond, h10, runBaseline]
    · have hcond : ¬ (1 ≤ (amps.filterMap id).length ∧
          10 ≤ List.length ([] : List ℚ) + (amps.filterMap id).length) := by
        simp
        omega
      simp [hcond, h10]
  refine ⟨?_, hsnd', hfst', ?_⟩
  · rw [hsnd']
    by_cases h10 : 10 ≤ (amps.filterMap id).length <;> simp [h10]
  · rw [hfst']
    simp [List.length_drop]
    omega

end SuperSID

namespace SuperSID

/-! ### Claim C4 — anomaly classification -/

/-- C4 counterexample: the claim says a station-keyed signal with an
established baseline, `std > 0` and amplitude 10 times the baseline mean
triggers a spike anomaly.  `process_audio_buffer` keys its signal map by the
plain station id (here "NAA"), but `check_anomalies` parses every key as
`prefix_N` via `int(band_id.split('_')[1]) - 1`; for "NAA" the split has no
second component, the IndexError is swallowed, and no anomaly at all is
reported — with mean 0.01, std 0.001 and amplitude 0.1 (z-score 90) the code
returns the empty anomaly list. -/
theorem c4_counterexample :
    ¬ (∀ (stations : List PyStr) (baselines : List (PyStr × BaselineStats))
        (signals : List (PyStr × VLFSignal)) (bandId : PyStr) (sig : VLFSignal)
        (amp : ℚ) (bl : BaselineStats),
        (bandId, sig) ∈ signals → sig.amplitude = some amp →
        baselines.lookup bandId = some bl → 0 < bl.std →
        (hasAnomaly (check_anomalies stations baselines signals) bandId
            AnomalyKind.spike = true ↔
          (3 < |amp - bl.mean| / bl.std ∧ bl.mean < amp))) := by
  intro hcl
  have h := hcl [['N', 'A', 'A']]
    [(['N', 'A', 'A'], ⟨1/100, 1/1000, 0, 1⟩)]
    [(['N', 'A', 'A'], ⟨0, some 24, some (1/10), some 0, "NAA"⟩)]
    ['N', 'A', 'A'] ⟨0, some 24, some (1/10), some 0, "NAA"⟩ (1/10)
    ⟨1/100, 1/1000, 0, 1⟩
    (List.mem_singleton.mpr rfl) rfl (by simp [List.lookup]) (by norm_num)
  have habs : |(1/10 : ℚ) - 1/100| = 9/100 := by
    rw [abs_of_pos (by norm_num)]
    norm_num
  have hz : (3 : ℚ) < |(1/10 : ℚ) - 1/100| / (1/1000) ∧ (1/100 : ℚ) < 1/10 := by
    rw [habs]
    constructor <;> norm_num
  have hfalse := h.mpr hz
  have hempty : check_anomalies [['N', 'A', 'A']]
      [(['N', 'A', 'A'], ⟨1/100, 1/1000, 0, 1⟩)]
      [(['N', 'A', 'A'], ⟨0, some 24, some (1/10), some 0, "NAA"⟩)] = [] := by
    simp [check_anomalies, anomaliesFor, resolveStation, parseBandNum,
      pySplitUnderscore]
  rw [hempty] at hfalse
  simp [hasAnomaly] at hfalse

/-- C4 amended: for a signal-map entry whose key does parse as an indexed band
id resolving to a station (the `prefix_N` form the checker expects, unlike the
station-keyed maps `process_audio_buffer` produces, which yield no anomalies at
all), with an established baseline, a finite amplitude and `std > 0`, a
"spike" is reported exactly when `|amplitude - mean| / std > 3.0` and
`amplitude > mean`, and a "drop" exactly when the z-score exceeds 3.0 and
`amplitude <= mean`; an amplitude of 10 times the mean therefore spikes only
when `9 * mean > 3 * std`.  Keys that fail to resolve contribute no
anomalies, and the full checker is the per-entry checker over the map. -/
theorem c4_amended (stations : List PyStr) (baselines : List (PyStr × BaselineStats))
    (signals : List (PyStr × VLFSignal)) (bandId : PyStr) (sig : VLFSignal)
    (e : Anomaly) :
    (hasAnomaly (anomaliesFor stations baselines (bandId, sig)) bandId
        AnomalyKind.spike = true ↔
      ∃ station bl amp, resolveStation stations bandId = some station ∧
        baselines.lookup station = some bl ∧ sig.amplitude = some amp ∧
        0 < bl.std ∧ 3 < |amp - bl.mean| / bl.std ∧ bl.mean < amp) ∧
    (hasAnomaly (anomaliesFor stations baselines (bandId, sig)) bandId
        AnomalyKind.drop = true ↔
      ∃ station bl amp, resolveStation stations bandId = some station ∧
        baselines.lookup station = some bl ∧ sig.amplitude = some amp ∧
        0 < bl.std ∧ 3 < |amp - bl.mean| / bl.std ∧ amp ≤ bl.mean) ∧
    (resolveStation stations bandId = none →
      anomaliesFor stations baselines (bandId, sig) = []) ∧
    (e ∈ check_anomalies stations baselines signals ↔
      ∃ p ∈ signals, e ∈ anomaliesFor stations baselines p) := by
  refine ⟨?_, ?_, ?_, List.mem_flatMap⟩
  · rcases hres : resolveStation stations bandId with _ | station
    · simp [hasAnomaly, anomaliesFor, hres]
    · rcases hbl : baselines.lookup station with _ | bl
      · simp [hasAnomaly, anomaliesFor, hres, hbl]
      · rcases hamp : sig.amplitude with _ | amp
        · simp [hasAnomaly, anomaliesFor, hres, hbl, hamp]
        · by_cases hc : 0 < bl.std ∧ 3 < |amp - bl.mean| / bl.std <;>
            by_cases hgt : bl.mean < amp <;>
            by_cases hloss : amp < bl.mean * (1/10) ∧ 1/1000 < bl.mean <;>
            simp [hasAnomaly, anomaliesFor, hres, hbl, hamp, hc, hgt, hloss,
              and_assoc]
  · rcases hres : resolveStation stations bandId with _ | station
    · simp [hasAnomaly, anomaliesFor, hres]
    · rcases hbl : baselines.lookup station with _ | bl
      · simp [hasAnomaly, anomaliesFor, hres, hbl]
      · rcases hamp : sig.amplitude with _ | amp
        · simp [hasAnomaly, anomaliesFor, hres, hbl, hamp]
        · by_cases hc : 0 < bl.std ∧ 3 < |amp - bl.mean| / bl.std <;>
            by_cases hgt : bl.mean < amp <;>
            by_cases hloss : amp < bl.mean * (1/10) ∧ 1/1000 < bl.mean <;>
            simp [hasAnomaly, anomaliesFor, hres, hbl, hamp, hc, hgt, hloss,
              and_assoc] <;>
            first
            | tauto
            | exact not_lt.mp (by assumption)
            | exact fun hstd => not_lt.mp (fun hz => hc ⟨hstd, hz⟩)
  · intro hres
    simp [anomaliesFor, hres]

end SuperSID

namespace SuperSID

/-- C4 amended witness: for the index-keyed band id "BAND_1" over station
"NAA" with baseline mean 0.01, std 0.001 and amplitude 0.1 (z-score 90), the
spike anomaly is reported; and the station-keyed id "NAA" resolves to no
station and contributes no anomalies. -/
theorem c4_amended_witness :
    hasAnomaly (anomaliesFor [['N', 'A', 'A']]
        [(['N', 'A', 'A'], ⟨1/100, 1/1000, 0, 1⟩)]
        (['B', 'A', 'N', 'D', '_', '1'], ⟨0, some 24, some (1/10), some 0, "NAA"⟩))
      ['B', 'A', 'N', 'D', '_', '1'] AnomalyKind.spike = true ∧
    anomaliesFor [['N', 'A', 'A']]
        [(['N', 'A', 'A'], ⟨1/100, 1/1000, 0, 1⟩)]
        (['N', 'A', 'A'], ⟨0, some 24, some (1/10), some 0, "NAA"⟩) = [] := by
  constructor
  · have h := (c4_amended [['N', 'A', 'A']]
        [(['N', 'A', 'A'], ⟨1/100, 1/1000, 0, 1⟩)] []
        ['B', 'A', 'N', 'D', '_', '1'] ⟨0, some 24, some (1/10), some 0, "NAA"⟩
        ⟨[], [], AnomalyKind.spike⟩).1
    refine h.mpr ⟨['N', 'A', 'A'], ⟨1/100, 1/1000, 0, 1⟩, 1/10, ?_, ?_, rfl, ?_, ?_, ?_⟩
    · rfl
    · rfl
    · norm_num
    · have habs : |(1/10 : ℚ) - 1/100| = 9/100 := by
        rw [abs_of_pos (by norm_num)]
        norm_num
      rw [habs]
      norm_num
    · norm_num
  · have h := (c4_amended [['N', 'A', 'A']]
        [(['N', 'A', 'A'], ⟨1/100, 1/1000, 0, 1⟩)] []
        ['N', 'A', 'A'] ⟨0, some 24, some (1/10), some 0, "NAA"⟩
        ⟨[], [], AnomalyKind.spike⟩).2.2.1
    exact h rfl

end SuperSID

namespace SuperSID

/-! ### Audio-processor lemmas and claims C2, C10 -/

/-- The warning flag and per-call warning count of one buffer. -/
theorem process_flag_warns (K : AudioKernels) (C : AudioConfig) (flag : Bool)
    (audio : List Fl) (t : ℚ) :
    (process_audio_buffer K C flag audio t).1
        = (flag || audio.any (fun v => !(isFiniteF v))) ∧
    (process_audio_buffer K C flag audio t).2.1
        = (if audio.any (fun v => !(isFiniteF v)) && !flag then 1 else 0) := by
  by_cases he : audio.isEmpty
  · have hnil : audio = [] := List.isEmpty_iff.mp he
    subst hnil
    simp [process_audio_buffer]
  · simp [process_audio_buffer, he]

/-- At most one data-invalid warning is ever logged after the flag is set. -/
theorem runAudio_warns_le (K : AudioKernels) (C : AudioConfig)
    (buffers : List (List Fl × ℚ)) :
    ∀ (flag : Bool) (c : ℕ),
      (buffers.foldl (audioLifetimeStep K C) (flag, c)).2
        ≤ c + (if flag then 0 else 1) := by
  induction buffers with
  | nil =>
      intro flag c
      cases flag <;> simp
  | cons b bs ih =>
      intro flag c
      simp only [List.foldl_cons]
      have h1 := (process_flag_warns K C flag b.1 b.2).1
      have h2 := (process_flag_warns K C flag b.1 b.2).2
      have hstep : audioLifetimeStep K C (flag, c) b
          = ((process_audio_buffer K C flag b.1 b.2).1,
             c + (process_audio_buffer K C flag b.1 b.2).2.1) := rfl
      rw [hstep, h1, h2]
      cases flag
      · by_cases hb : b.1.any (fun v => !(isFiniteF v))
        · simp only [hb]
          have := ih true (c + 1)
          simpa using this
        · simp only [hb]
          have := ih false (c + 0)
          simpa using this
      · simp only [Bool.or_true, Bool.true_or, Bool.not_true, Bool.and_false]
        have := ih true (c + 0)
        simpa using this

/-- Every signal a station contributes has this shape: the configured
timestamp and station id, a finite frequency, a clamped finite amplitude, and
the constant 0.0 phase. -/
theorem processStation_shape (K : AudioKernels) (C : AudioConfig) (n : ℕ)
    (ps fb : List ℚ) (t : ℚ) (st : String) (sig : VLFSignal)
    (h : processStation K C n ps fb t st = some sig) :
    ∃ fr amp, sig = ⟨t, some fr, some (clampAmplitude amp), some 0, st⟩ := by
  dsimp only [processStation] at h
  split at h
  · exact absurd h (by simp)
  · split at h
    · exact absurd h (by simp)
    · split at h
      · exact absurd h (by simp)
      · simp only [Option.some.injEq] at h
        exact ⟨_, _, h.symm⟩

/-- The clamp really lands in [0, 1]. -/
theorem clampAmplitude_bounds (a : ℚ) :
    0 ≤ clampAmplitude a ∧ clampAmplitude a ≤ 1 := by
  unfold clampAmplitude
  constructor
  · exact le_max_left 0 _
  · apply max_le
    · norm_num
    · exact min_le_right a 1

/-- C2: non-finite samples are sanitised, never propagated.  Across any
processor lifetime (any sequence of buffers, each possibly holding NaN or
infinite samples) the device-invalid warning is logged at most once; and for
every single call — whatever the warning flag, the input buffer (non-finite
samples included) and the opaque FFT/window/sqrt kernels — every `VLFSignal`
produced has finite frequency, amplitude and phase. -/
theorem c2_sanitize_finite (K : AudioKernels) (C : AudioConfig)
    (buffers : List (List Fl × ℚ)) (flag : Bool) (audio : List Fl) (t : ℚ) :
    (runAudioBuffers K C buffers).2 ≤ 1 ∧
    ((process_audio_buffer K C flag audio t).2.2.all
      (fun sig => isFiniteF sig.frequency && isFiniteF sig.amplitude &&
        isFiniteF sig.phase)) = true := by
  constructor
  · have := runAudio_warns_le K C buffers false 0
    simpa [runAudioBuffers] using this
  · rw [List.all_eq_true]
    intro sig hsig
    have hmem : sig ∈ (process_audio_buffer K C flag audio t).2.2 := hsig
    unfold process_audio_buffer at hmem
    split at hmem
    · simp at hmem
    · simp only [List.mem_filterMap] at hmem
      obtain ⟨st, _, hst⟩ := hmem
      obtain ⟨fr, amp, rfl⟩ := processStation_shape K C _ _ _ _ _ _ hst
      simp [isFiniteF]

/-- C10: every `VLFSignal` emitted by `process_audio_buffer` has a finite
amplitude lying in the closed interval [0, 1] — whatever the input buffer
(non-finite samples included) and the opaque numeric kernels, since a
non-finite or negative band power and a non-finite raw amplitude are zeroed
and the result is clamped by `max(0.0, min(amplitude, 1.0))`. -/
theorem c10_amplitude_in_unit_interval (K : AudioKernels) (C : AudioConfig)
    (flag : Bool) (audio : List Fl) (t : ℚ) :
    ((process_audio_buffer K C flag audio t).2.2.all
      (fun sig =>
        match sig.amplitude with
        | some a => decide (0 ≤ a ∧ a ≤ 1)
        | none => false)) = true := by
  rw [List.all_eq_true]
  intro sig hsig
  have hmem : sig ∈ (process_audio_buffer K C flag audio t).2.2 := hsig
  unfold process_audio_buffer at hmem
  split at hmem
  · simp at hmem
  · simp only [List.mem_filterMap] at hmem
    obtain ⟨st, _, hst⟩ := hmem
    obtain ⟨fr, amp, rfl⟩ := processStation_shape K C _ _ _ _ _ _ hst
    have hb := clampAmplitude_bounds amp
    simp [hb.1, hb.2]

end SuperSID

namespace SuperSID

/-! ### Claims C8, C9 — chunk processing -/

/-- C8: for every chunk and every station, the reported amplitude is the RMS
of the filtered series, and the reported phase equals the mean angle of the
analytic (Hilbert-transformed) filtered signal exactly when that RMS
amplitude exceeds the 1e-6 noise floor, and exactly 0.0 otherwise (the floor
comparison is IEEE-style, so a NaN RMS also reports 0.0); `process_chunk`
applies this per-station computation to the normalised chunk for every
installed filter. -/
theorem c8_phase_noise_floor (K : ChunkKernels) (sample_rate : ℚ)
    (testMode : Bool) (station_frequencies : List (String × ℚ))
    (filters : List (String × (List ℚ × List ℚ))) (data : List ℚ)
    (station : String) (b a : List ℚ) (tNow : ℚ) :
    (processStationChunk K sample_rate testMode station_frequencies data
        station b a tNow).amplitude
      = rmsAmplitude K (applyFilter K b a data) ∧
    (processStationChunk K sample_rate testMode station_frequencies data
        station b a tNow).phase
      = some (if flGtQ (rmsAmplitude K (applyFilter K b a data)) (1/1000000)
          then K.hilbertMeanAngle (applyFilter K b a data) else 0) ∧
    process_chunk K sample_rate testMode station_frequencies filters data tNow
      = (if data.length < 256 then []
        else filters.map (fun p =>
          (p.1, processStationChunk K sample_rate testMode station_frequencies
            (normalizeChunk data) p.1 p.2.1 p.2.2 tNow))) :=
  ⟨rfl, rfl, rfl⟩

/-- C9: frames shorter than 256 samples make `process_chunk` return the empty
map, no station producing any signal; and for any frame that does get
processed, provided every installed filter has at most 85 numerator
coefficients (`signal.butter(4, .., btype='band')` produces 9) and `filtfilt`
preserves the series length (scipy's does), the causal-filter fallback and
the short-chunk frequency branch are never taken: the result coincides with
the variant that always uses zero-phase filtering and always estimates the
dominant frequency. -/
theorem c9_short_frame_unreachable (K : ChunkKernels) (sample_rate : ℚ)
    (testMode : Bool) (station_frequencies : List (String × ℚ))
    (filters : List (String × (List ℚ × List ℚ))) (data : List ℚ) (tNow : ℚ)
    (hfilt : ∀ b a d, (K.filtfiltFn b a d).length = d.length) :
    (data.length < 256 →
      process_chunk K sample_rate testMode station_frequencies filters data
        tNow = []) ∧
    ((∀ p ∈ filters, p.2.1.length * 3 ≤ 256) →
      process_chunk K sample_rate testMode station_frequencies filters data
          tNow
        = process_chunk_zero_phase K sample_rate testMode station_frequencies
            filters data tNow) := by
  constructor
  · intro h
    simp [process_chunk, h]
  · intro hb
    by_cases hlen : data.length < 256
    · simp [process_chunk, process_chunk_zero_phase, hlen]
    · push_neg at hlen
      simp only [process_chunk, process_chunk_zero_phase,
        if_neg (not_lt.mpr hlen)]
      refine List.map_congr_left ?_
      intro p hp
      have hblen := hb p hp
      have hnorm : (normalizeChunk data).length = data.length := by
        unfold normalizeChunk
        split <;> simp
      have happ : applyFilter K p.2.1 p.2.2 (normalizeChunk data)
          = K.filtfiltFn p.2.1 p.2.2 (normalizeChunk data) := by
        unfold applyFilter
        rw [if_pos]
        rw [hnorm]
        omega
      have hfl : (K.filtfiltFn p.2.1 p.2.2 (normalizeChunk data)).length
          = data.length := by
        rw [hfilt, hnorm]
      have hfd : findDominantFrequency K sample_rate
            (K.filtfiltFn p.2.1 p.2.2 (normalizeChunk data))
          = dominantFreqMain K sample_rate
            (K.filtfiltFn p.2.1 p.2.2 (normalizeChunk data)) := by
        unfold findDominantFrequency
        rw [if_neg]
        rw [hfl]
        omega
      simp [processStationChunk, happ, hfd]

/-- C9 witness: with identity stand-ins for the filter kernels and one
9-coefficient filter, a 10-sample frame yields the empty map, and a
300-sample frame is processed identically to the no-fallback variant. -/
theorem c9_short_frame_unreachable_witness :
    process_chunk
      ⟨fun _ _ d => d, fun _ _ d => d, fun _ => 0, fun _ => [], fun q => q⟩
      11025 true [] [("NAA", (List.replicate 9 (1 : ℚ), List.replicate 9 (1 : ℚ)))]
      (List.replicate 10 (0 : ℚ)) 0 = [] ∧
    process_chunk
      ⟨fun _ _ d => d, fun _ _ d => d, fun _ => 0, fun _ => [], fun q => q⟩
      11025 true [] [("NAA", (List.replicate 9 (1 : ℚ), List.replicate 9 (1 : ℚ)))]
      (List.replicate 300 (0 : ℚ)) 0
      = process_chunk_zero_phase
        ⟨fun _ _ d => d, fun _ _ d => d, fun _ => 0, fun _ => [], fun q => q⟩
        11025 true [] [("NAA", (List.replicate 9 (1 : ℚ), List.replicate 9 (1 : ℚ)))]
        (List.replicate 300 (0 : ℚ)) 0 := by
  constructor
  · exact (c9_short_frame_unreachable _ _ _ _ _ _ _ (fun b a d => rfl)).1
      (by norm_num)
  · refine (c9_short_frame_unreachable _ _ _ _ _ _ _ (fun b a d => rfl)).2 ?_
    intro p hp
    simp only [List.mem_singleton] at hp
    subst hp
    simp

end SuperSID
